import Mathlib

/-!
Shallow embedding of the grade-query application's two core components:

* the grade aggregator `calculate_student_grades` (src/app/crud.py), embedded
  through the definitions `mandatory_items`, `optional_items`, `slots_needed`,
  `top_optionals`, `selected_scores`, `divisor`, `rawAverage`, `average`;
* the submission workflow `student_submit_action` (src/app/routers/student.py)
  together with `is_exam_effectively_open` and
  `get_student_submission_status` (src/app/crud.py), embedded as a pure
  state-transition function `submit` over a per-(student, exam) state.

Python floats are modelled as rationals, datetimes as integers.
-/

namespace GradeQuery

/-- Python `round(x, 2)` modelled on ℚ: round `x * 100` to the nearest integer
and divide by 100.  (CPython rounds half-to-even on the underlying binary
float; on exact rationals the conventions differ only at exact midpoints,
which none of the verified properties depend on.) -/
def round2 (q : ℚ) : ℚ := (round (q * 100) : ℚ) / 100

/-- Monotonicity of `round2`, since `round x = ⌊x + 1/2⌋` is. -/
theorem round2_mono {a b : ℚ} (h : a ≤ b) : round2 a ≤ round2 b := by
  unfold round2
  have h100 : a * 100 ≤ b * 100 := by nlinarith
  have : round (a * 100) ≤ round (b * 100) := by
    rw [round_eq, round_eq]
    exact Int.floor_mono (by linarith)
  have hc : ((round (a * 100) : ℚ)) ≤ ((round (b * 100) : ℚ)) := by exact_mod_cast this
  linarith

/-- An exam-catalog entry: only the fields `calculate_student_grades` reads
for the Top-20 computation (`exam.id`, `exam.is_mandatory`). -/
structure ExamT where
  id : Nat
  is_mandatory : Bool
deriving DecidableEq

/-- The Python dict `score_map` (exam id to score) is modelled as a
function from exam id to optional score. -/
def ScoreMap : Type := Nat → Option ℚ

/-- The `mandatory_items` list built by the loop in `calculate_student_grades`:
every mandatory exam contributes `score_map.get(exam.id)` with `None`
replaced by `0.0`, in catalog order. -/
def mandatory_items (exams : List ExamT) (sm : ScoreMap) : List ℚ :=
  exams.filterMap (fun e => if e.is_mandatory then some ((sm e.id).getD 0) else none)

/-- The `optional_items` list: optional exams contribute only when a score is
recorded, in catalog order. -/
def optional_items (exams : List ExamT) (sm : ScoreMap) : List ℚ :=
  exams.filterMap (fun e => if e.is_mandatory then none else sm e.id)

/-- Source: `slots_needed = 20 - len(mandatory_items)` (a Python int, so possibly
negative). -/
def slots_needed (exams : List ExamT) (sm : ScoreMap) : Int :=
  20 - (mandatory_items exams sm).length

/-- Source: `optional_items.sort(key=lambda x: x["score"], reverse=True)` — descending
sort of the optional scores. -/
def sortDesc (l : List ℚ) : List ℚ :=
  l.mergeSort (fun a b => decide (b ≤ a))

/-- Source: `top_optionals = optional_items[:slots_needed]` after the descending sort,
guarded by `slots_needed > 0`. -/
def top_optionals (exams : List ExamT) (sm : ScoreMap) : List ℚ :=
  if 0 < slots_needed exams sm then
    (sortDesc (optional_items exams sm)).take (slots_needed exams sm).toNat
  else []

/-- The `selected_scores` list: all mandatory values followed by the chosen optional
values. -/
def selected_scores (exams : List ExamT) (sm : ScoreMap) : List ℚ :=
  mandatory_items exams sm ++ top_optionals exams sm

/-- Source: `divisor = max(20, effective_count)`. -/
def divisor (exams : List ExamT) (sm : ScoreMap) : Nat :=
  max 20 (selected_scores exams sm).length

/-- Source: `average = 0.0 if divisor == 0 else total_score / divisor`. -/
def rawAverage (exams : List ExamT) (sm : ScoreMap) : ℚ :=
  if divisor exams sm = 0 then 0
  else (selected_scores exams sm).sum / (divisor exams sm : ℚ)

/-- The reported `average`: `round(total_score / divisor, 2)`. -/
def average (exams : List ExamT) (sm : ScoreMap) : ℚ :=
  round2 (rawAverage exams sm)

/- ### Basic facts about the sort and the selection -/

theorem sortDesc_perm (l : List ℚ) : (sortDesc l).Perm l :=
  List.mergeSort_perm l _

theorem sortDesc_length (l : List ℚ) : (sortDesc l).length = l.length :=
  List.length_mergeSort l

theorem sortDesc_sum (l : List ℚ) : (sortDesc l).sum = l.sum :=
  (sortDesc_perm l).sum_eq

theorem sortDesc_sorted (l : List ℚ) :
    List.Sorted (fun a b : ℚ => b ≤ a) (sortDesc l) := by
  have h := @List.sorted_mergeSort ℚ (fun a b : ℚ => decide (b ≤ a))
    (fun a b c hab hbc => by
      simp only [decide_eq_true_eq] at *
      exact le_trans hbc hab)
    (fun a b => by
      simp only [Bool.or_eq_true, decide_eq_true_eq]
      exact le_total b a) l
  refine h.imp ?_
  intro a b hab
  simpa using hab

theorem length_selected_le (exams : List ExamT) (sm : ScoreMap)
    (h : (mandatory_items exams sm).length ≤ 20) :
    (selected_scores exams sm).length ≤ 20 := by
  classical
  unfold selected_scores top_optionals
  rcases lt_or_ge 0 (slots_needed exams sm) with hpos | hneg
  · rw [if_pos hpos]
    have hlen : ((sortDesc (optional_items exams sm)).take
        (slots_needed exams sm).toNat).length ≤ (slots_needed exams sm).toNat := by
      rw [List.length_take]; exact min_le_left _ _
    have htn : (slots_needed exams sm).toNat = 20 - (mandatory_items exams sm).length := by
      unfold slots_needed; omega
    rw [List.length_append]
    omega
  · rw [if_neg (by omega)]
    simpa using h

theorem divisor_ge_20 (exams : List ExamT) (sm : ScoreMap) :
    20 ≤ divisor exams sm := le_max_left _ _

/-- C10: Safety of the average computation: the divisor `max(20, len(selected))`
is at least 20, hence never zero, so the `divisor == 0` branch that would
return `average = 0.0` is unreachable and the division is always taken; an
empty catalog still yields average 0, via an empty selection summed to 0 and
divided by 20. -/
theorem C10_divisor_safe (exams : List ExamT) (sm : ScoreMap) :
    20 ≤ divisor exams sm ∧ divisor exams sm ≠ 0 ∧
      rawAverage exams sm = (selected_scores exams sm).sum / (divisor exams sm : ℚ) ∧
      (exams = [] →
        selected_scores exams sm = [] ∧ divisor exams sm = 20 ∧ average exams sm = 0) := by
  have h20 := divisor_ge_20 exams sm
  refine ⟨h20, by omega, ?_, ?_⟩
  · unfold rawAverage
    rw [if_neg (by omega)]
  · intro hnil
    subst hnil
    have hsel : selected_scores [] sm = [] := by
      simp [selected_scores, mandatory_items, top_optionals, optional_items,
        sortDesc, slots_needed]
    refine ⟨hsel, ?_, ?_⟩
    · simp [divisor, hsel]
    · simp [average, rawAverage, divisor, hsel, round2]

theorem C10_divisor_safe_witness :
    selected_scores [] (fun _ => none) = [] ∧ divisor [] (fun _ => none) = 20 ∧
      average [] (fun _ => none) = 0 :=
  (C10_divisor_safe [] (fun _ => none)).2.2.2 rfl

/-- C1: The Top-20 rule, as specified: with `M` mandatory exams, when `M ≤ 20`
the average is `(sum of zero-filled mandatory + sum of top (20 − M) scored
optional) / 20`, rounded to 2 places; when `M > 20` the divisor is `M`, no
optional exam is selected, and the average is `(sum of mandatory) / M`. -/
theorem C1_top20_average (exams : List ExamT) (sm : ScoreMap) :
    ((mandatory_items exams sm).length ≤ 20 →
      average exams sm = round2
        (((mandatory_items exams sm).sum +
          ((sortDesc (optional_items exams sm)).take
            (20 - (mandatory_items exams sm).length)).sum) / 20))
    ∧ (20 < (mandatory_items exams sm).length →
      divisor exams sm = (mandatory_items exams sm).length ∧
      top_optionals exams sm = [] ∧
      average exams sm = round2
        ((mandatory_items exams sm).sum / ((mandatory_items exams sm).length : ℚ))) := by
  classical
  constructor
  · intro hM
    have hdiv : divisor exams sm = 20 := by
      have := length_selected_le exams sm hM
      unfold divisor
      omega
    have htop : top_optionals exams sm =
        (sortDesc (optional_items exams sm)).take
          (20 - (mandatory_items exams sm).length) := by
      unfold top_optionals
      rcases lt_or_ge 0 (slots_needed exams sm) with hpos | hneg
      · rw [if_pos hpos]
        congr 1
        unfold slots_needed
        omega
      · rw [if_neg (by omega)]
        have h20 : (mandatory_items exams sm).length = 20 := by
          unfold slots_needed at hneg; omega
        rw [h20]
        simp
    unfold average rawAverage
    rw [if_neg (by have := divisor_ge_20 exams sm; omega), hdiv]
    unfold selected_scores
    rw [List.sum_append, htop]
    norm_num
  · intro hM
    have htop : top_optionals exams sm = [] := by
      unfold top_optionals
      rw [if_neg (by unfold slots_needed; omega)]
    have hsel : selected_scores exams sm = mandatory_items exams sm := by
      unfold selected_scores; rw [htop, List.append_nil]
    have hdiv : divisor exams sm = (mandatory_items exams sm).length := by
      unfold divisor
      rw [hsel]
      omega
    refine ⟨hdiv, htop, ?_⟩
    unfold average rawAverage
    rw [if_neg (by have := divisor_ge_20 exams sm; omega), hdiv, hsel]

/-- Scenario A of the spec: mandatory scores `[80, missing]`, optional scores
`[90, 70, 60]`; the average is `round((80 + 0 + 90 + 70 + 60) / 20, 2) = 15`.
Discharges the `M ≤ 20` hypothesis of the Top-20 theorem at this input. -/
theorem C1_top20_average_witness :
    average
      [⟨1, true⟩, ⟨2, true⟩, ⟨3, false⟩, ⟨4, false⟩, ⟨5, false⟩]
      (fun i => if i = 1 then some 80 else if i = 3 then some 90 else
        if i = 4 then some 70 else if i = 5 then some 60 else none) = 15 := by
  have h := (C1_top20_average
    [⟨1, true⟩, ⟨2, true⟩, ⟨3, false⟩, ⟨4, false⟩, ⟨5, false⟩]
    (fun i => if i = 1 then some 80 else if i = 3 then some 90 else
      if i = 4 then some 70 else if i = 5 then some 60 else none)).1
    (by norm_num [mandatory_items, List.filterMap])
  rw [h]
  norm_num [mandatory_items, optional_items, sortDesc, List.filterMap,
    List.mergeSort, round2, round_eq]

/-! ### The submission workflow (src/app/routers/student.py, src/app/crud.py) -/

/-- The `SubmissionStatus` enum from src/models.py. -/
inductive SubmissionStatus where
  | PENDING
  | APPROVED
  | REJECTED
deriving DecidableEq

/-- An `ExamType` row, restricted to the fields the submission flow reads:
the manual flag and the optional deadline (a datetime, modelled as ℤ). -/
structure Exam where
  is_open_for_submission : Bool
  submission_deadline : Option Int
deriving DecidableEq

/-- Embeds `is_exam_effectively_open` from src/app/crud.py:
closed when the manual switch is off, closed when a deadline exists and
`datetime.utcnow() > deadline`, open otherwise.  `now` stands for
`datetime.utcnow()`. -/
def is_exam_effectively_open (now : Int) (exam : Exam) : Bool :=
  if !exam.is_open_for_submission then false
  else
    match exam.submission_deadline with
    | some d => if now > d then false else true
    | none => true

/-- The parsed AI-classifier payload: `confidence = ai_data.get("confidence", 0)`
(so a payload without the field is modelled as confidence 0) plus the reason
string; the stored `ai_response_json` is modelled as this parsed value. -/
structure ClassifierData where
  confidence : ℚ
  reason : String
deriving DecidableEq

/-- Outcome of the external classifier round-trip:
`unavailable` (network error/exception), `unparseable` (`json.loads` fails),
or a parsed payload. -/
inductive ClassifierResult where
  | unavailable
  | unparseable
  | parsed (data : ClassifierData)
deriving DecidableEq

/-- A `SubmissionLog` row for one (student, exam) pair. -/
structure LogRow where
  last_attempt_time : Int
  status : SubmissionStatus
  attempt_count : Nat
  ai_response : Option ClassifierData
deriving DecidableEq

/-- The `order_by(SubmissionLog.last_attempt_time.desc())` query: the pair's
log rows sorted by attempt time, most recent first. -/
def sortLogsDesc (rows : List LogRow) : List LogRow :=
  rows.mergeSort (fun a b => decide (b.last_attempt_time ≤ a.last_attempt_time))

/-- Embeds `get_student_submission_status` from src/app/crud.py: the number of log
rows for the pair, and the current status (APPROVED if any row is APPROVED,
else the status of the first row of the time-descending query, else the
PENDING default). -/
def get_student_submission_status (rows : List LogRow) : Nat × SubmissionStatus :=
  let submissions := sortLogsDesc rows
  let count := submissions.length
  let is_approved := submissions.any (fun s => decide (s.status = SubmissionStatus.APPROVED))
  let base := if is_approved then SubmissionStatus.APPROVED else SubmissionStatus.PENDING
  let status :=
    if 0 < count && !is_approved then
      (submissions.head?.map (fun s => s.status)).getD base
    else base
  (count, status)

/-- The per-request environment of `student_submit_action`: the request time,
the Turnstile outcome, whether the Gemini client is configured, the
classifier outcome, and the claimed score from the form. -/
structure SubmitEnv where
  now : Int
  challenge_ok : Bool
  ai_configured : Bool
  classifier : ClassifierResult
  score_claim : ℚ

/-- The stored state for one (student, exam) pair: its `SubmissionLog` rows
and its `Score` rows (values only). -/
structure PairState where
  logs : List LogRow
  scores : List ℚ
deriving DecidableEq

/-- Outcome of one POST to `/student/submit/{exam_id}`, following the JSON
responses of `student_submit_action`. -/
inductive SubmitResult where
  | challenge_failed
  | attempts_exhausted
  | already_approved
  | exam_not_found
  | closed
  | ai_not_configured
  | verification_unavailable
  | approved
  | rejected (remaining : Nat)
deriving DecidableEq

/-- Embeds `student_submit_action` from src/app/routers/student.py as a pure state
transition on one (student, exam) pair, checks in source order:
1. Turnstile; 2. `count >= 3`; 3. status already APPROVED; 4. exam lookup;
5. `is_exam_effectively_open`; 6. Gemini client configured; 7. classifier
call (exception or unparseable output hits the 500 paths and writes
nothing); 8. `confidence > 75` decides APPROVED (a `Score` row is added for
`score_claim`) versus REJECTED; either way one log row is appended with
`attempt_count = count + 1` and the classifier payload. -/
def submit (env : SubmitEnv) (exam : Option Exam) (st : PairState) :
    SubmitResult × PairState :=
  if !env.challenge_ok then (.challenge_failed, st)
  else
    let cs := get_student_submission_status st.logs
    if cs.1 ≥ 3 then (.attempts_exhausted, st)
    else if cs.2 = SubmissionStatus.APPROVED then (.already_approved, st)
    else
      match exam with
      | none => (.exam_not_found, st)
      | some ex =>
        if !is_exam_effectively_open env.now ex then (.closed, st)
        else if !env.ai_configured then (.ai_not_configured, st)
        else
          match env.classifier with
          | .unavailable => (.verification_unavailable, st)
          | .unparseable => (.verification_unavailable, st)
          | .parsed data =>
            let new_status :=
              if data.confidence > 75 then SubmissionStatus.APPROVED
              else SubmissionStatus.REJECTED
            let scores' :=
              if data.confidence > 75 then st.scores ++ [env.score_claim]
              else st.scores
            let log : LogRow :=
              { last_attempt_time := env.now, status := new_status,
                attempt_count := cs.1 + 1, ai_response := some data }
            let st' : PairState := { logs := log :: st.logs, scores := scores' }
            if new_status = SubmissionStatus.APPROVED then (.approved, st')
            else (.rejected (max 0 (3 - (cs.1 + 1))), st')

/- ### Basic facts about the status query -/

theorem sortLogsDesc_perm (rows : List LogRow) : (sortLogsDesc rows).Perm rows :=
  List.mergeSort_perm rows _

theorem sortLogsDesc_length (rows : List LogRow) :
    (sortLogsDesc rows).length = rows.length :=
  List.length_mergeSort rows

theorem sortLogsDesc_sorted (rows : List LogRow) :
    List.Sorted (fun a b : LogRow => b.last_attempt_time ≤ a.last_attempt_time)
      (sortLogsDesc rows) := by
  have h := @List.sorted_mergeSort LogRow
    (fun a b : LogRow => decide (b.last_attempt_time ≤ a.last_attempt_time))
    (fun a b c hab hbc => by
      simp only [decide_eq_true_eq] at *
      exact le_trans hbc hab)
    (fun a b => by
      simp only [Bool.or_eq_true, decide_eq_true_eq]
      exact le_total b.last_attempt_time a.last_attempt_time) rows
  refine h.imp ?_
  intro a b hab
  simpa using hab

/-- The attempt count returned by the status query is the number of log rows. -/
theorem status_count (rows : List LogRow) :
    (get_student_submission_status rows).1 = rows.length := by
  unfold get_student_submission_status
  simp [sortLogsDesc_length]

/-- The status query returns APPROVED exactly when some log row is APPROVED. -/
theorem status_approved_iff (rows : List LogRow) :
    (get_student_submission_status rows).2 = SubmissionStatus.APPROVED ↔
      ∃ r ∈ rows, r.status = SubmissionStatus.APPROVED := by
  unfold get_student_submission_status
  set subs := sortLogsDesc rows with hsubs
  have hmem : ∀ r : LogRow, r ∈ subs ↔ r ∈ rows :=
    fun r => (sortLogsDesc_perm rows).mem_iff
  by_cases happ :
      subs.any (fun s => decide (s.status = SubmissionStatus.APPROVED)) = true
  · simp only [happ]
    rw [List.any_eq_true] at happ
    obtain ⟨r, hr, hrs⟩ := happ
    simp only [decide_eq_true_eq] at hrs
    simp only [if_true, Bool.not_true, Bool.and_false, if_false]
    constructor
    · intro _; exact ⟨r, (hmem r).1 hr, hrs⟩
    · intro _; rfl
  · rw [Bool.not_eq_true] at happ
    simp only [happ]
    have hno : ¬ ∃ r ∈ rows, r.status = SubmissionStatus.APPROVED := by
      intro ⟨r, hr, hrs⟩
      have : subs.any (fun s => decide (s.status = SubmissionStatus.APPROVED)) = true :=
        List.any_eq_true.2 ⟨r, (hmem r).2 hr, by simpa using hrs⟩
      rw [happ] at this
      exact Bool.false_ne_true this
    simp only [Bool.not_false, if_false]
    constructor
    · intro hstat
      exfalso
      rcases hsubs2 : subs with _ | ⟨s, rest⟩
      · rw [hsubs2] at hstat
        simp at hstat
      · have hs_mem : s ∈ subs := by
          rw [hsubs2]; exact List.mem_cons_self _ _
        rw [hsubs2] at hstat
        simp at hstat
        exact hno ⟨s, (hmem s).1 hs_mem, hstat⟩
    · intro h
      exact absurd h hno

theorem any_of_perm {l1 l2 : List LogRow} (h : l1.Perm l2) (p : LogRow → Bool) :
    l1.any p = l2.any p := by
  cases h2 : l2.any p
  · cases h1 : l1.any p
    · rfl
    · obtain ⟨r, hr, hrp⟩ := List.any_eq_true.1 h1
      have : l2.any p = true := List.any_eq_true.2 ⟨r, h.mem_iff.1 hr, hrp⟩
      rw [h2] at this
      exact absurd this Bool.false_ne_true
  · obtain ⟨r, hr, hrp⟩ := List.any_eq_true.1 h2
    exact List.any_eq_true.2 ⟨r, h.mem_iff.2 hr, hrp⟩

/-- The status rule as the spec words it: APPROVED if any row is APPROVED;
otherwise the status of the most recent row (the one of maximal attempt
time); otherwise the PENDING default for an empty history. -/
def spec_current_status (rows : List LogRow) : SubmissionStatus :=
  if rows.any (fun s => decide (s.status = SubmissionStatus.APPROVED)) then
    SubmissionStatus.APPROVED
  else
    match rows.argmax (fun r => r.last_attempt_time) with
    | some r => r.status
    | none => SubmissionStatus.PENDING

/-- C5: the status query contract.  For any list of log rows of a pair with
pairwise-distinct attempt times, `get_student_submission_status` returns the
number of rows as the attempt count, and as current status: APPROVED if any
row is APPROVED, otherwise the status of the most recent row, and PENDING
when no rows exist. -/
theorem C5_status_query (rows : List LogRow)
    (hnd : (rows.map (fun r => r.last_attempt_time)).Nodup) :
    get_student_submission_status rows = (rows.length, spec_current_status rows) := by
  classical
  have h1 : (get_student_submission_status rows).1 = rows.length := status_count rows
  have h2 : (get_student_submission_status rows).2 = spec_current_status rows := by
    unfold spec_current_status
    by_cases hany :
        rows.any (fun s => decide (s.status = SubmissionStatus.APPROVED)) = true
    · rw [if_pos hany]
      refine (status_approved_iff rows).2 ?_
      obtain ⟨r, hr, hrp⟩ := List.any_eq_true.1 hany
      exact ⟨r, hr, by simpa using hrp⟩
    · rw [Bool.not_eq_true] at hany
      rw [hany, if_neg Bool.false_ne_true]
      rcases hmax : rows.argmax (fun r => r.last_attempt_time) with _ | r
      · have hrows : rows = [] := List.argmax_eq_none.1 hmax
        subst hrows
        simp [get_student_submission_status, sortLogsDesc, List.mergeSort_nil]
      · -- rows is nonempty; the head of the sorted list is the most recent row
        have hperm := sortLogsDesc_perm rows
        have hsorted := sortLogsDesc_sorted rows
        have hanysub :
            (sortLogsDesc rows).any
              (fun s => decide (s.status = SubmissionStatus.APPROVED)) = false := by
          rw [any_of_perm hperm]; exact hany
        rcases hsubs : sortLogsDesc rows with _ | ⟨s, rest⟩
        · have : rows.length = 0 := by
            rw [← sortLogsDesc_length rows, hsubs]; rfl
          have : rows = [] := List.length_eq_zero.1 this
          subst this
          simp at hmax
        · have hs_mem : s ∈ rows := hperm.mem_iff.1 (by rw [hsubs]; exact List.mem_cons_self _ _)
          have hs_max : ∀ x ∈ rows, x.last_attempt_time ≤ s.last_attempt_time := by
            intro x hx
            have hx' : x ∈ sortLogsDesc rows := hperm.mem_iff.2 hx
            rw [hsubs] at hx'
            rcases List.mem_cons.1 hx' with hxe | hxr
            · rw [hxe]
            · rw [hsubs] at hsorted
              exact (List.sorted_cons.1 hsorted).1 x hxr
          have hr_mem : r ∈ rows := List.argmax_mem (by rw [hmax]; rfl)
          have hsr : s.last_attempt_time ≤ r.last_attempt_time :=
            List.le_of_mem_argmax hs_mem (by rw [hmax]; rfl)
          have hrs : r.last_attempt_time ≤ s.last_attempt_time := hs_max r hr_mem
          have hteq : s.last_attempt_time = r.last_attempt_time := le_antisymm hsr hrs
          have hsr_eq : s = r := List.inj_on_of_nodup_map hnd hs_mem hr_mem hteq
          unfold get_student_submission_status
          rw [hsubs] at hanysub ⊢
          have hall : ∀ x ∈ s :: rest, ¬ x.status = SubmissionStatus.APPROVED := by
            intro x hx
            have hx' := List.any_eq_false.1 hanysub x hx
            simpa using hx'
          simp [hanysub, hsr_eq]
          rw [hmax]
          exact if_pos ⟨by rw [← hsr_eq]; exact hall s (List.mem_cons_self _ _),
            fun x hx => hall x (List.mem_cons_of_mem _ hx)⟩
  calc get_student_submission_status rows
      = ((get_student_submission_status rows).1,
         (get_student_submission_status rows).2) := rfl
    _ = (rows.length, spec_current_status rows) := by rw [h1, h2]

/-- Witness for C5 at a concrete two-row history: a REJECTED row at time 5
and a PENDING row at time 3 give attempt count 2 and current status REJECTED
(the most recent row wins, no row being APPROVED). -/
theorem C5_status_query_witness :
    get_student_submission_status
      [⟨3, SubmissionStatus.PENDING, 1, none⟩, ⟨5, SubmissionStatus.REJECTED, 2, none⟩]
      = (2, SubmissionStatus.REJECTED) := by
  have h := C5_status_query
    [⟨3, SubmissionStatus.PENDING, 1, none⟩, ⟨5, SubmissionStatus.REJECTED, 2, none⟩]
    (by norm_num)
  rw [h]
  decide

/- ### Path lemmas for `submit`, one per early return of the handler -/

theorem submit_challenge_failed (env : SubmitEnv) (exam : Option Exam) (st : PairState)
    (hc : env.challenge_ok = false) :
    submit env exam st = (SubmitResult.challenge_failed, st) := by
  unfold submit
  simp [hc]

theorem submit_attempts_exhausted (env : SubmitEnv) (exam : Option Exam) (st : PairState)
    (hc : env.challenge_ok = true)
    (h3 : 3 ≤ (get_student_submission_status st.logs).1) :
    submit env exam st = (SubmitResult.attempts_exhausted, st) := by
  unfold submit
  simp [hc, h3]

theorem submit_already_approved (env : SubmitEnv) (exam : Option Exam) (st : PairState)
    (hc : env.challenge_ok = true)
    (hcount : (get_student_submission_status st.logs).1 < 3)
    (hst : (get_student_submission_status st.logs).2 = SubmissionStatus.APPROVED) :
    submit env exam st = (SubmitResult.already_approved, st) := by
  unfold submit
  simp [hc, Nat.not_le.2 hcount, hst]

theorem submit_exam_not_found (env : SubmitEnv) (st : PairState)
    (hc : env.challenge_ok = true)
    (hcount : (get_student_submission_status st.logs).1 < 3)
    (hst : (get_student_submission_status st.logs).2 ≠ SubmissionStatus.APPROVED) :
    submit env none st = (SubmitResult.exam_not_found, st) := by
  unfold submit
  simp [hc, Nat.not_le.2 hcount, hst]

theorem submit_closed (env : SubmitEnv) (ex : Exam) (st : PairState)
    (hc : env.challenge_ok = true)
    (hcount : (get_student_submission_status st.logs).1 < 3)
    (hst : (get_student_submission_status st.logs).2 ≠ SubmissionStatus.APPROVED)
    (hopen : is_exam_effectively_open env.now ex = false) :
    submit env (some ex) st = (SubmitResult.closed, st) := by
  unfold submit
  simp [hc, Nat.not_le.2 hcount, hst, hopen]

theorem submit_not_configured (env : SubmitEnv) (ex : Exam) (st : PairState)
    (hc : env.challenge_ok = true)
    (hcount : (get_student_submission_status st.logs).1 < 3)
    (hst : (get_student_submission_status st.logs).2 ≠ SubmissionStatus.APPROVED)
    (hopen : is_exam_effectively_open env.now ex = true)
    (hai : env.ai_configured = false) :
    submit env (some ex) st = (SubmitResult.ai_not_configured, st) := by
  unfold submit
  simp [hc, Nat.not_le.2 hcount, hst, hopen, hai]

theorem submit_unavailable (env : SubmitEnv) (ex : Exam) (st : PairState)
    (hc : env.challenge_ok = true)
    (hcount : (get_student_submission_status st.logs).1 < 3)
    (hst : (get_student_submission_status st.logs).2 ≠ SubmissionStatus.APPROVED)
    (hopen : is_exam_effectively_open env.now ex = true)
    (hai : env.ai_configured = true)
    (hcl : env.classifier = ClassifierResult.unavailable ∨
      env.classifier = ClassifierResult.unparseable) :
    submit env (some ex) st = (SubmitResult.verification_unavailable, st) := by
  unfold submit
  rcases hcl with hcl | hcl <;>
    simp [hc, Nat.not_le.2 hcount, hst, hopen, hai, hcl]

theorem submit_parsed (env : SubmitEnv) (ex : Exam) (st : PairState) (data : ClassifierData)
    (hc : env.challenge_ok = true)
    (hcount : (get_student_submission_status st.logs).1 < 3)
    (hst : (get_student_submission_status st.logs).2 ≠ SubmissionStatus.APPROVED)
    (hopen : is_exam_effectively_open env.now ex = true)
    (hai : env.ai_configured = true)
    (hcl : env.classifier = ClassifierResult.parsed data) :
    submit env (some ex) st =
      ((if 75 < data.confidence then SubmitResult.approved
        else SubmitResult.rejected
          (max 0 (3 - ((get_student_submission_status st.logs).1 + 1)))),
       { logs := { last_attempt_time := env.now,
                   status := if 75 < data.confidence then SubmissionStatus.APPROVED
                     else SubmissionStatus.REJECTED,
                   attempt_count := (get_student_submission_status st.logs).1 + 1,
                   ai_response := some data } :: st.logs,
         scores := if 75 < data.confidence then st.scores ++ [env.score_claim]
           else st.scores }) := by
  unfold submit
  by_cases hconf : 75 < data.confidence <;>
    simp [hc, Nat.not_le.2 hcount, hst, hopen, hai, hcl, hconf]

theorem bool_eq_false {b : Bool} (h : ¬ b = true) : b = false := by
  cases b
  · rfl
  · exact absurd rfl h

/-- Counterexample to C2 as stated: on an exam that is not effectively open,
a submission whose anti-automation challenge fails is answered
CHALLENGE_FAILED, not CLOSED — the handler checks the challenge before the
open/deadline check. -/
theorem C2_counterexample :
    (submit ⟨0, false, true, ClassifierResult.unparseable, 0⟩
        (some ⟨false, none⟩) ⟨[], []⟩).1 = SubmitResult.challenge_failed ∧
      is_exam_effectively_open 0 ⟨false, none⟩ = false ∧
      SubmitResult.challenge_failed ≠ SubmitResult.closed := by
  refine ⟨?_, rfl, by decide⟩
  rw [submit_challenge_failed _ _ _ rfl]

/-- C2 (amended): the preconditions of `submit` are checked in this order,
first failure winning: (a) the anti-automation challenge, else
CHALLENGE_FAILED with no state change; (b) `attempt_count < 3`, else
ATTEMPTS_EXHAUSTED; (c) status not already APPROVED, else the
ALREADY_APPROVED short-circuit success with no new log; (d) exam found and
effectively open, else CLOSED.  (The spec's order lists the open check
first; in the code it comes last, after challenge, attempts and approval.) -/
theorem C2_precondition_order (env : SubmitEnv) (exam : Option Exam) (st : PairState) :
    (env.challenge_ok = false →
      submit env exam st = (SubmitResult.challenge_failed, st))
    ∧ (env.challenge_ok = true →
        3 ≤ (get_student_submission_status st.logs).1 →
        submit env exam st = (SubmitResult.attempts_exhausted, st))
    ∧ (env.challenge_ok = true →
        (get_student_submission_status st.logs).1 < 3 →
        (get_student_submission_status st.logs).2 = SubmissionStatus.APPROVED →
        submit env exam st = (SubmitResult.already_approved, st))
    ∧ (∀ ex, env.challenge_ok = true →
        (get_student_submission_status st.logs).1 < 3 →
        (get_student_submission_status st.logs).2 ≠ SubmissionStatus.APPROVED →
        exam = some ex → is_exam_effectively_open env.now ex = false →
        submit env exam st = (SubmitResult.closed, st)) :=
  ⟨submit_challenge_failed env exam st,
   submit_attempts_exhausted env exam st,
   submit_already_approved env exam st,
   fun ex hc hcount hst hex hopen => by
     subst hex
     exact submit_closed env ex st hc hcount hst hopen⟩

/-- Witness for C2: with a passing challenge, no prior attempts and a
closed exam, `submit` returns CLOSED and leaves the state unchanged. -/
theorem C2_precondition_order_witness :
    submit ⟨0, true, true, ClassifierResult.unparseable, 0⟩
        (some ⟨false, none⟩) ⟨[], []⟩ = (SubmitResult.closed, ⟨[], []⟩) :=
  (C2_precondition_order ⟨0, true, true, ClassifierResult.unparseable, 0⟩
      (some ⟨false, none⟩) ⟨[], []⟩).2.2.2 ⟨false, none⟩ rfl
    (by rw [status_count]; decide)
    (by intro hx; rw [status_approved_iff] at hx; obtain ⟨r, hr, -⟩ := hx; simp at hr)
    rfl rfl

/-- The effectively-open predicate as the spec words it: open flag set, and
the deadline (if any) strictly in the future (`now < deadline`). -/
def spec_effectively_open (now : Int) (exam : Exam) : Prop :=
  exam.is_open_for_submission = true ∧
    (exam.submission_deadline = none ∨
      ∃ d, exam.submission_deadline = some d ∧ now < d)

/-- Counterexample to C6 as stated: at the instant `now = deadline` the code
still reports the exam as effectively open (`utcnow() > deadline` is false),
while the spec's strict predicate `now < deadline` says it is not open. -/
theorem C6_counterexample :
    is_exam_effectively_open 5 ⟨true, some 5⟩ = true ∧
      ¬ spec_effectively_open 5 ⟨true, some 5⟩ := by
  refine ⟨rfl, ?_⟩
  rintro ⟨-, h | ⟨d, hd, hlt⟩⟩
  · simp at h
  · simp at hd
    omega

/-- C6 (amended): the effectively-open predicate equals
`is_open_for_submission AND (deadline IS NULL OR now ≤ deadline)` — the
deadline comparison is non-strict, so an exam is still open at the exact
deadline instant and closes only strictly after it; and a submission that
passes the challenge, with attempts remaining and no prior approval, on an
open-flagged exam whose deadline lies strictly before `now`, returns CLOSED. -/
theorem C6_effectively_open :
    (∀ (now : Int) (exam : Exam),
      is_exam_effectively_open now exam = true ↔
        exam.is_open_for_submission = true ∧
          (exam.submission_deadline = none ∨
            ∃ d, exam.submission_deadline = some d ∧ now ≤ d))
    ∧ (∀ (env : SubmitEnv) (ex : Exam) (st : PairState) (d : Int),
        env.challenge_ok = true →
        (get_student_submission_status st.logs).1 < 3 →
        (get_student_submission_status st.logs).2 ≠ SubmissionStatus.APPROVED →
        ex.is_open_for_submission = true →
        ex.submission_deadline = some d → d < env.now →
        submit env (some ex) st = (SubmitResult.closed, st)) := by
  constructor
  · intro now exam
    rcases exam with ⟨flag, dl⟩
    unfold is_exam_effectively_open
    rcases flag with _ | _
    · simp
    · rcases dl with _ | d
      · simp
      · by_cases hd : now > d <;> simp [hd]
        omega
  · intro env ex st d hc hcount hst hflag hdl hlt
    have hopen : is_exam_effectively_open env.now ex = false := by
      unfold is_exam_effectively_open
      rw [hdl]
      have hgt : env.now > d := hlt
      simp [hflag, hgt]
    exact submit_closed env ex st hc hcount hst hopen

/-- Witness for C6: Scenario D — the open flag is set but the deadline (3)
lies strictly before `now = 10`, so the submission is answered CLOSED. -/
theorem C6_effectively_open_witness :
    submit ⟨10, true, true, ClassifierResult.unparseable, 0⟩
        (some ⟨true, some 3⟩) ⟨[], []⟩ = (SubmitResult.closed, ⟨[], []⟩) :=
  C6_effectively_open.2 ⟨10, true, true, ClassifierResult.unparseable, 0⟩
    ⟨true, some 3⟩ ⟨[], []⟩ 3 rfl
    (by rw [status_count]; decide)
    (by intro hx; rw [status_approved_iff] at hx; obtain ⟨r, hr, -⟩ := hx; simp at hr)
    rfl rfl (by decide)

/-- C3: the decision rule at the classifier threshold.  When a submission
reaches the classifier and its output parses, confidence strictly greater
than 75 yields APPROVED with a Score row written for the claimed score and
an APPROVED log row; confidence at most 75 yields REJECTED with no Score row
written. -/
theorem C3_confidence_threshold (env : SubmitEnv) (ex : Exam) (st : PairState)
    (data : ClassifierData)
    (hc : env.challenge_ok = true)
    (hcount : (get_student_submission_status st.logs).1 < 3)
    (hst : (get_student_submission_status st.logs).2 ≠ SubmissionStatus.APPROVED)
    (hopen : is_exam_effectively_open env.now ex = true)
    (hai : env.ai_configured = true)
    (hcl : env.classifier = ClassifierResult.parsed data) :
    (75 < data.confidence →
      (submit env (some ex) st).1 = SubmitResult.approved ∧
      (submit env (some ex) st).2.scores = st.scores ++ [env.score_claim] ∧
      ((submit env (some ex) st).2.logs.head?.map (fun l => l.status))
        = some SubmissionStatus.APPROVED)
    ∧ (data.confidence ≤ 75 →
      (submit env (some ex) st).1 = SubmitResult.rejected
        (max 0 (3 - ((get_student_submission_status st.logs).1 + 1))) ∧
      (submit env (some ex) st).2.scores = st.scores) := by
  rw [submit_parsed env ex st data hc hcount hst hopen hai hcl]
  constructor
  · intro hconf
    simp [hconf]
  · intro hconf
    simp [not_lt.2 hconf]

/-- Witness for C3: confidence exactly 76 is approved and writes the claimed
score; confidence exactly 75 is rejected (2 attempts remain after the first)
and writes nothing. -/
theorem C3_confidence_threshold_witness :
    ((submit ⟨0, true, true, ClassifierResult.parsed ⟨76, "ok"⟩, 88⟩
        (some ⟨true, none⟩) ⟨[], []⟩).1 = SubmitResult.approved ∧
      (submit ⟨0, true, true, ClassifierResult.parsed ⟨76, "ok"⟩, 88⟩
        (some ⟨true, none⟩) ⟨[], []⟩).2.scores = [] ++ [(88 : ℚ)])
    ∧ ((submit ⟨0, true, true, ClassifierResult.parsed ⟨75, "low"⟩, 88⟩
        (some ⟨true, none⟩) ⟨[], []⟩).1 = SubmitResult.rejected 2 ∧
      (submit ⟨0, true, true, ClassifierResult.parsed ⟨75, "low"⟩, 88⟩
        (some ⟨true, none⟩) ⟨[], []⟩).2.scores = []) := by
  constructor
  · have h := (C3_confidence_threshold
      ⟨0, true, true, ClassifierResult.parsed ⟨76, "ok"⟩, 88⟩ ⟨true, none⟩ ⟨[], []⟩
      ⟨76, "ok"⟩ rfl
      (by rw [status_count]; decide)
      (by intro hx; rw [status_approved_iff] at hx; obtain ⟨r, hr, -⟩ := hx; simp at hr)
      rfl rfl rfl).1 (by norm_num)
    exact ⟨h.1, h.2.1⟩
  · have h := (C3_confidence_threshold
      ⟨0, true, true, ClassifierResult.parsed ⟨75, "low"⟩, 88⟩ ⟨true, none⟩ ⟨[], []⟩
      ⟨75, "low"⟩ rfl
      (by rw [status_count]; decide)
      (by intro hx; rw [status_approved_iff] at hx; obtain ⟨r, hr, -⟩ := hx; simp at hr)
      rfl rfl rfl).2 (by norm_num)
    refine ⟨?_, h.2⟩
    rw [h.1, status_count]
    rfl

/-- All the guards that must pass before `student_submit_action` calls the
external classifier: challenge passed, attempts remaining, not already
approved, exam found and effectively open, Gemini client configured. -/
def classifier_invoked (env : SubmitEnv) (exam : Option Exam) (st : PairState) : Prop :=
  env.challenge_ok = true ∧
    (get_student_submission_status st.logs).1 < 3 ∧
    (get_student_submission_status st.logs).2 ≠ SubmissionStatus.APPROVED ∧
    (∃ ex, exam = some ex ∧ is_exam_effectively_open env.now ex = true) ∧
    env.ai_configured = true

/-- Exhaustive effect analysis of one `submit` call: either the stored state
is completely unchanged, or the classifier was invoked with parseable output
and exactly the appended log row (plus, on approval, the appended score)
changes. -/
theorem submit_changes (env : SubmitEnv) (exam : Option Exam) (st : PairState) :
    (submit env exam st).2 = st ∨
      (classifier_invoked env exam st ∧
        ∃ data, env.classifier = ClassifierResult.parsed data ∧
          (submit env exam st).2.logs =
            { last_attempt_time := env.now,
              status := if 75 < data.confidence then SubmissionStatus.APPROVED
                else SubmissionStatus.REJECTED,
              attempt_count := (get_student_submission_status st.logs).1 + 1,
              ai_response := some data } :: st.logs ∧
          (submit env exam st).2.scores =
            (if 75 < data.confidence then st.scores ++ [env.score_claim]
              else st.scores)) := by
  by_cases hc : env.challenge_ok = true
  · by_cases h3 : 3 ≤ (get_student_submission_status st.logs).1
    · left
      rw [submit_attempts_exhausted env exam st hc h3]
    · have hcount := not_le.1 h3
      by_cases hst : (get_student_submission_status st.logs).2 = SubmissionStatus.APPROVED
      · left
        rw [submit_already_approved env exam st hc hcount hst]
      · rcases exam with _ | ex
        · left
          rw [submit_exam_not_found env st hc hcount hst]
        · by_cases hopen : is_exam_effectively_open env.now ex = true
          · by_cases hai : env.ai_configured = true
            · rcases hclass : env.classifier with _ | _ | data
              · left
                rw [submit_unavailable env ex st hc hcount hst hopen hai (Or.inl hclass)]
              · left
                rw [submit_unavailable env ex st hc hcount hst hopen hai (Or.inr hclass)]
              · right
                refine ⟨⟨hc, hcount, hst, ⟨ex, rfl, hopen⟩, hai⟩, data, rfl, ?_, ?_⟩
                · rw [submit_parsed env ex st data hc hcount hst hopen hai hclass]
                · rw [submit_parsed env ex st data hc hcount hst hopen hai hclass]
            · left
              rw [submit_not_configured env ex st hc hcount hst hopen (bool_eq_false hai)]
          · left
            rw [submit_closed env ex st hc hcount hst (bool_eq_false hopen)]
  · left
    rw [submit_challenge_failed env exam st (bool_eq_false hc)]

/-- C4: audit logging.  Exactly one new SubmissionLog row, with
`attempt_count = previous count + 1` and the parsed classifier payload
preserved, is written precisely when the classifier was invoked and its
output parsed (whatever the approval outcome); when the classifier is
unreachable or its output unparseable the result is
VERIFICATION_UNAVAILABLE and the stored state is unchanged, so the attempt
is not consumed; and no path other than a parsed classifier call changes
the stored state at all. -/
theorem C4_audit_logging (env : SubmitEnv) (exam : Option Exam) (st : PairState) :
    (∀ data ex, exam = some ex → classifier_invoked env exam st →
      env.classifier = ClassifierResult.parsed data →
      (submit env exam st).2.logs =
        { last_attempt_time := env.now,
          status := if 75 < data.confidence then SubmissionStatus.APPROVED
            else SubmissionStatus.REJECTED,
          attempt_count := (get_student_submission_status st.logs).1 + 1,
          ai_response := some data } :: st.logs)
    ∧ (classifier_invoked env exam st →
        (env.classifier = ClassifierResult.unavailable ∨
          env.classifier = ClassifierResult.unparseable) →
        (submit env exam st).1 = SubmitResult.verification_unavailable ∧
        (submit env exam st).2 = st)
    ∧ (¬ classifier_invoked env exam st → (submit env exam st).2 = st) := by
  refine ⟨?_, ?_, ?_⟩
  · intro data ex hex hinv hcl
    subst hex
    obtain ⟨hc, hcount, hst, ⟨ex2, hex2, hopen⟩, hai⟩ := hinv
    injection hex2 with hee
    subst hee
    rw [submit_parsed env ex st data hc hcount hst hopen hai hcl]
  · rintro ⟨hc, hcount, hst, ⟨ex, rfl, hopen⟩, hai⟩ hcl
    rw [submit_unavailable env ex st hc hcount hst hopen hai hcl]
    exact ⟨rfl, rfl⟩
  · intro hni
    rcases submit_changes env exam st with h | ⟨hinv, -⟩
    · exact h
    · exact absurd hinv hni

/-- Witness for C4: a parsed classifier payload with confidence 10 on a fresh
pair appends exactly one REJECTED log row carrying attempt count 1 and the
payload; an unreachable classifier on the same pair returns
VERIFICATION_UNAVAILABLE and changes nothing. -/
theorem C4_audit_logging_witness :
    (submit ⟨7, true, true, ClassifierResult.parsed ⟨10, "blurry"⟩, 42⟩
        (some ⟨true, none⟩) ⟨[], []⟩).2.logs =
      [{ last_attempt_time := 7, status := SubmissionStatus.REJECTED,
         attempt_count := 1, ai_response := some ⟨10, "blurry"⟩ }]
    ∧ (submit ⟨7, true, true, ClassifierResult.unavailable, 42⟩
        (some ⟨true, none⟩) ⟨[], []⟩).2 = ⟨[], []⟩ := by
  constructor
  · have h := (C4_audit_logging
      ⟨7, true, true, ClassifierResult.parsed ⟨10, "blurry"⟩, 42⟩
      (some ⟨true, none⟩) ⟨[], []⟩).1 ⟨10, "blurry"⟩ ⟨true, none⟩ rfl
      ⟨rfl, by rw [status_count]; decide,
        by intro hx; rw [status_approved_iff] at hx; obtain ⟨r, hr, -⟩ := hx; simp at hr,
        ⟨⟨true, none⟩, rfl, rfl⟩, rfl⟩ rfl
    rw [h, status_count]
    norm_num
  · exact ((C4_audit_logging
      ⟨7, true, true, ClassifierResult.unavailable, 42⟩
      (some ⟨true, none⟩) ⟨[], []⟩).2.1
      ⟨rfl, by rw [status_count]; decide,
        by intro hx; rw [status_approved_iff] at hx; obtain ⟨r, hr, -⟩ := hx; simp at hr,
        ⟨⟨true, none⟩, rfl, rfl⟩, rfl⟩ (Or.inl rfl)).2

/-! ### Reachability of per-pair states under repeated submissions -/

/-- States of one (student, exam) pair reachable by any sequence of `submit`
calls, starting from an empty submission history (any pre-existing Score
rows allowed). -/
inductive ReachableSubmits : PairState → Prop where
  | init (scores : List ℚ) : ReachableSubmits ⟨[], scores⟩
  | step (env : SubmitEnv) (exam : Option Exam) {st : PairState} :
      ReachableSubmits st → ReachableSubmits (submit env exam st).2

/-- One `submit` call either leaves the log list unchanged, or appends
exactly one row — and appends only when fewer than 3 rows exist. -/
theorem submit_logs_growth (env : SubmitEnv) (exam : Option Exam) (st : PairState) :
    (submit env exam st).2.logs = st.logs ∨
      ((submit env exam st).2.logs.length = st.logs.length + 1 ∧ st.logs.length < 3) := by
  rcases submit_changes env exam st with h | ⟨⟨-, hcount, -, -, -⟩, data, -, hlogs, -⟩
  · left
    rw [h]
  · right
    rw [hlogs]
    rw [status_count] at hcount
    exact ⟨by simp, hcount⟩

/-- Counterexample to C7 as stated: with 3 rejected attempts on record, a
further submit whose anti-automation challenge fails is answered
CHALLENGE_FAILED, not ATTEMPTS_EXHAUSTED (the challenge is checked first);
it still writes no new row. -/
theorem C7_counterexample :
    (submit ⟨9, false, true, ClassifierResult.parsed ⟨100, "ok"⟩, 50⟩
        (some ⟨true, none⟩)
        ⟨[⟨1, SubmissionStatus.REJECTED, 1, none⟩,
          ⟨2, SubmissionStatus.REJECTED, 2, none⟩,
          ⟨3, SubmissionStatus.REJECTED, 3, none⟩], []⟩)
      = (SubmitResult.challenge_failed,
        ⟨[⟨1, SubmissionStatus.REJECTED, 1, none⟩,
          ⟨2, SubmissionStatus.REJECTED, 2, none⟩,
          ⟨3, SubmissionStatus.REJECTED, 3, none⟩], []⟩) ∧
      SubmitResult.challenge_failed ≠ SubmitResult.attempts_exhausted := by
  refine ⟨?_, by decide⟩
  exact submit_challenge_failed _ _ _ rfl

/-- C7 (amended): starting from no logs, the number of SubmissionLog rows of
a pair never exceeds 3 under any sequence of submissions (in particular
never, approved or not); and once 3 non-approved attempts exist, a further
submit that passes the anti-automation challenge returns ATTEMPTS_EXHAUSTED
with no new row and no state change, independently of the classifier (which
is never consulted on that path; a submit failing the challenge is instead
answered CHALLENGE_FAILED, also writing nothing). -/
theorem C7_attempt_cap :
    (∀ st, ReachableSubmits st → st.logs.length ≤ 3)
    ∧ (∀ (env : SubmitEnv) (exam : Option Exam) (st : PairState),
        st.logs.length = 3 →
        (∀ r ∈ st.logs, r.status ≠ SubmissionStatus.APPROVED) →
        env.challenge_ok = true →
        submit env exam st = (SubmitResult.attempts_exhausted, st)) := by
  constructor
  · intro st h
    induction h with
    | init scores => simp
    | step env exam hst ih =>
      rcases submit_logs_growth env exam _ with h | ⟨hlen, hlt⟩
      · rw [h]
        exact ih
      · omega
  · intro env exam st hlen hnapp hc
    exact submit_attempts_exhausted env exam st hc (by rw [status_count]; omega)

/-- Witness for C7: the empty history is reachable with 0 ≤ 3 rows, and on a
concrete pair with 3 rejected rows a challenge-passing submit is answered
ATTEMPTS_EXHAUSTED with the state untouched. -/
theorem C7_attempt_cap_witness :
    (⟨[], []⟩ : PairState).logs.length ≤ 3 ∧
      submit ⟨9, true, true, ClassifierResult.parsed ⟨100, "ok"⟩, 50⟩
        (some ⟨true, none⟩)
        ⟨[⟨1, SubmissionStatus.REJECTED, 1, none⟩,
          ⟨2, SubmissionStatus.REJECTED, 2, none⟩,
          ⟨3, SubmissionStatus.REJECTED, 3, none⟩], []⟩
      = (SubmitResult.attempts_exhausted,
        ⟨[⟨1, SubmissionStatus.REJECTED, 1, none⟩,
          ⟨2, SubmissionStatus.REJECTED, 2, none⟩,
          ⟨3, SubmissionStatus.REJECTED, 3, none⟩], []⟩) :=
  ⟨C7_attempt_cap.1 ⟨[], []⟩ (ReachableSubmits.init []),
   C7_attempt_cap.2 _ _ _ rfl (by decide) rfl⟩

/-! ### Score-row uniqueness (C8) -/

/-- The per-pair effect of the two admin score writers
(`process_excel_upload` and `bulk_update_scores`): both look up the first
existing Score row for the pair and update it in place, inserting a fresh
row only when none exists. -/
def upsert_score (v : ℚ) (scores : List ℚ) : List ℚ :=
  match scores with
  | [] => [v]
  | _ :: rest => v :: rest

/-- States of one (student, exam) pair reachable from the empty state by the
system's write operations: bulk Excel import, manual bulk update (both
modelled by `upsert_score`), and submissions. -/
inductive ReachablePair : PairState → Prop where
  | init : ReachablePair ⟨[], []⟩
  | admin_upsert (v : ℚ) {st : PairState} :
      ReachablePair st → ReachablePair ⟨st.logs, upsert_score v st.scores⟩
  | submit_step (env : SubmitEnv) (exam : Option Exam) {st : PairState} :
      ReachablePair st → ReachablePair (submit env exam st).2

/-- Number of APPROVED rows in a log list. -/
def approved_count (logs : List LogRow) : Nat :=
  (logs.filter (fun r => decide (r.status = SubmissionStatus.APPROVED))).length

theorem approved_count_zero (logs : List LogRow)
    (hst : (get_student_submission_status logs).2 ≠ SubmissionStatus.APPROVED) :
    approved_count logs = 0 := by
  unfold approved_count
  rcases hf : logs.filter (fun r => decide (r.status = SubmissionStatus.APPROVED)) with _ | ⟨r, rest⟩
  · rw [hf]
    rfl
  · exfalso
    have hr : r ∈ logs.filter (fun r => decide (r.status = SubmissionStatus.APPROVED)) := by
      rw [hf]
      exact List.mem_cons_self _ _
    rw [List.mem_filter] at hr
    exact hst ((status_approved_iff logs).2 ⟨r, hr.1, by simpa using hr.2⟩)

theorem upsert_score_length (v : ℚ) (scores : List ℚ) :
    (upsert_score v scores).length = max 1 scores.length := by
  rcases scores with _ | ⟨a, rest⟩
  · rfl
  · simp [upsert_score]

/-- Counterexample to C8 as stated: import a score for the pair, then get a
submission approved — the approved path appends a Score row without checking
for an existing one, so the pair ends with two Score rows in a state
reachable by the system's write operations. -/
theorem C8_counterexample :
    ReachablePair (submit ⟨0, true, true, ClassifierResult.parsed ⟨80, "ok"⟩, 90⟩
        (some ⟨true, none⟩) ⟨[], [50]⟩).2 ∧
      (submit ⟨0, true, true, ClassifierResult.parsed ⟨80, "ok"⟩, 90⟩
        (some ⟨true, none⟩) ⟨[], [50]⟩).2.scores = [50, 90] := by
  constructor
  · exact ReachablePair.submit_step _ _ (ReachablePair.admin_upsert 50 ReachablePair.init)
  · rw [submit_parsed ⟨0, true, true, ClassifierResult.parsed ⟨80, "ok"⟩, 90⟩
      ⟨true, none⟩ ⟨[], [50]⟩ ⟨80, "ok"⟩ rfl
      (by rw [status_count]; decide)
      (by intro hx; rw [status_approved_iff] at hx; obtain ⟨r, hr, -⟩ := hx; simp at hr)
      rfl rfl rfl]
    norm_num

/-- C8 (amended): the bulk import and manual update paths update an existing
Score row in place, so by themselves they keep at most one Score row per
pair; the approved-submission path appends a Score row without checking for
an existing one.  Consequently a pair holds at most `1 + (number of APPROVED
log rows)` Score rows, at most one log row is ever APPROVED, and so a pair
can hold two Score rows (import + approved submission) but never more. -/
theorem C8_score_row_bound (st : PairState) (h : ReachablePair st) :
    st.scores.length ≤ 1 + approved_count st.logs ∧
      approved_count st.logs ≤ 1 ∧ st.scores.length ≤ 2 := by
  induction h with
  | init => simp [approved_count]
  | admin_upsert v hst ih =>
    rename_i st0
    obtain ⟨ih1, ih2, ih3⟩ := ih
    refine ⟨?_, ?_, ?_⟩
    · show (upsert_score v st0.scores).length ≤ 1 + approved_count st0.logs
      rw [upsert_score_length]
      omega
    · show approved_count st0.logs ≤ 1
      exact ih2
    · show (upsert_score v st0.scores).length ≤ 2
      rw [upsert_score_length]
      omega
  | submit_step env exam hst ih =>
    obtain ⟨ih1, ih2, ih3⟩ := ih
    rename_i st0
    rcases submit_changes env exam st0 with hsame | ⟨⟨-, -, hstat, -, -⟩, data, -, hlogs, hscores⟩
    · rw [hsame]
      exact ⟨ih1, ih2, ih3⟩
    · have ha0 : approved_count st0.logs = 0 := approved_count_zero st0.logs hstat
      have hfilter0 :
          List.filter (fun r => decide (r.status = SubmissionStatus.APPROVED)) st0.logs = [] := by
        unfold approved_count at ha0
        exact List.length_eq_zero.1 ha0
      by_cases hconf : 75 < data.confidence
      · have hac : approved_count (submit env exam st0).2.logs = 1 := by
          rw [hlogs]
          unfold approved_count
          simp [List.filter_cons, hconf, hfilter0]
        have hsc : (submit env exam st0).2.scores.length = st0.scores.length + 1 := by
          rw [hscores]
          simp [hconf]
        refine ⟨?_, ?_, ?_⟩
        · rw [hac, hsc]
          omega
        · rw [hac]
        · rw [hsc]
          omega
      · have hac : approved_count (submit env exam st0).2.logs = 0 := by
          rw [hlogs]
          unfold approved_count
          simp [List.filter_cons, hconf, hfilter0]
        have hsc : (submit env exam st0).2.scores.length = st0.scores.length := by
          rw [hscores]
          simp [hconf]
        refine ⟨?_, ?_, ?_⟩
        · rw [hac, hsc]
          omega
        · rw [hac]
          omega
        · rw [hsc]
          omega

/-- Witness for C8 (amended): the two-Score-row state above is reachable and
indeed respects the bound of two. -/
theorem C8_score_row_bound_witness :
    (submit ⟨0, true, true, ClassifierResult.parsed ⟨80, "ok"⟩, 90⟩
        (some ⟨true, none⟩) ⟨[], [50]⟩).2.scores.length ≤ 2 :=
  (C8_score_row_bound _
    (ReachablePair.submit_step _ _ (ReachablePair.admin_upsert 50 ReachablePair.init))).2.2

/-! ### Sorted-insertion machinery for the optional-score monotonicity claim -/

/-- Insertion of one value into a descending-sorted list of scores, after any
equal values. -/
def insDesc (v : ℚ) : List ℚ → List ℚ
  | [] => [v]
  | x :: xs => if v ≤ x then x :: insDesc v xs else v :: x :: xs

theorem insDesc_perm (v : ℚ) (s : List ℚ) : (insDesc v s).Perm (v :: s) := by
  induction s with
  | nil => exact List.Perm.refl _
  | cons x xs ih =>
    unfold insDesc
    by_cases h : v ≤ x
    · rw [if_pos h]
      exact (ih.cons x).trans (List.Perm.swap v x xs)
    · rw [if_neg h]

theorem insDesc_length (v : ℚ) (s : List ℚ) :
    (insDesc v s).length = s.length + 1 := by
  have := (insDesc_perm v s).length_eq
  simpa using this

theorem insDesc_sum (v : ℚ) (s : List ℚ) : (insDesc v s).sum = v + s.sum :=
  (insDesc_perm v s).sum_eq

theorem insDesc_sorted (v : ℚ) (s : List ℚ)
    (hs : List.Sorted (fun a b : ℚ => b ≤ a) s) :
    List.Sorted (fun a b : ℚ => b ≤ a) (insDesc v s) := by
  induction s with
  | nil => simp [insDesc]
  | cons x xs ih =>
    obtain ⟨hx, hxs⟩ := List.sorted_cons.1 hs
    unfold insDesc
    by_cases h : v ≤ x
    · rw [if_pos h]
      rw [List.sorted_cons]
      refine ⟨?_, ih hxs⟩
      intro b hb
      rcases List.mem_cons.1 ((insDesc_perm v xs).mem_iff.1 hb) with rfl | hbxs
      · exact h
      · exact hx b hbxs
    · rw [if_neg h]
      rw [List.sorted_cons]
      constructor
      · intro b hb
        rcases List.mem_cons.1 hb with rfl | hbxs
        · exact le_of_lt (not_le.1 h)
        · exact le_trans (hx b hbxs) (le_of_lt (not_le.1 h))
      · exact hs

theorem sortDesc_append_singleton (l : List ℚ) (v : ℚ) :
    sortDesc (l ++ [v]) = insDesc v (sortDesc l) := by
  haveI : IsAntisymm ℚ (fun a b : ℚ => b ≤ a) := ⟨fun a b h1 h2 => le_antisymm h2 h1⟩
  refine List.eq_of_perm_of_sorted ?_ (sortDesc_sorted _)
    (insDesc_sorted v _ (sortDesc_sorted l))
  exact ((sortDesc_perm _).trans ((List.perm_append_singleton v l).trans
    (((sortDesc_perm l).symm).cons v))).trans (insDesc_perm v (sortDesc l)).symm

/-- If the inserted value is below every element of the first `k` slots, the
first `k` slots are unchanged. -/
theorem insDesc_take_of_le (v : ℚ) (s : List ℚ) (k : Nat)
    (hk : k ≤ s.length) (h : ∀ x ∈ s.take k, v ≤ x) :
    (insDesc v s).take k = s.take k := by
  induction s generalizing k with
  | nil =>
    have : k = 0 := by simpa using hk
    subst this
    rfl
  | cons x xs ih =>
    cases k with
    | zero => rfl
    | succ j =>
      have hvx : v ≤ x := h x (by simp)
      unfold insDesc
      rw [if_pos hvx]
      simp only [List.take_succ_cons]
      congr 1
      refine ih j (by simpa using hk) ?_
      intro y hy
      exact h y (by simp [hy])

/-- If the inserted value strictly beats the `k`-th slot, the first `k` slots
become the inserted value together with the old first `k - 1` slots. -/
theorem insDesc_take_replace (v m : ℚ) (s : List ℚ) (k : Nat)
    (hdec : s.take k = s.take (k - 1) ++ [m]) (hlt : m < v) :
    ((insDesc v s).take k).Perm (v :: s.take (k - 1)) := by
  induction s generalizing k with
  | nil =>
    exfalso
    simp at hdec
  | cons x xs ih =>
    cases k with
    | zero =>
      exfalso
      simp at hdec
    | succ j =>
      unfold insDesc
      by_cases hvx : v ≤ x
      · rw [if_pos hvx]
        cases j with
        | zero =>
          exfalso
          simp at hdec
          exact absurd hlt (not_lt.2 (hdec ▸ hvx))
        | succ i =>
          have hdec' : xs.take (i + 1) = xs.take i ++ [m] := by
            have h2 : (x :: xs).take (i + 2) = (x :: xs).take (i + 1) ++ [m] := by
              simpa using hdec
            simp only [List.take_succ_cons, List.cons_append] at h2
            injection h2
          have hperm := ih (i + 1) (by simpa using hdec')
          simp only [Nat.add_sub_cancel] at hperm
          simp only [List.take_succ_cons, Nat.add_sub_cancel]
          exact (hperm.cons x).trans (List.Perm.swap v x _)
      · rw [if_neg hvx]
        simp only [List.take_succ_cons, Nat.add_sub_cancel]
        exact List.Perm.refl _

theorem mandatory_items_snoc (exams : List ExamT) (sm : ScoreMap) (nid : Nat) (v : ℚ)
    (hfresh : ∀ e ∈ exams, e.id ≠ nid) :
    mandatory_items (exams ++ [⟨nid, false⟩]) (fun i => if i = nid then some v else sm i)
      = mandatory_items exams sm := by
  unfold mandatory_items
  rw [List.filterMap_append]
  have h2 : List.filterMap
      (fun e => if e.is_mandatory then
        some (((fun i => if i = nid then some v else sm i) e.id).getD 0) else none)
      [(⟨nid, false⟩ : ExamT)] = [] := by simp
  rw [h2, List.append_nil]
  apply List.filterMap_congr
  intro e he
  simp [hfresh e he]

theorem optional_items_snoc (exams : List ExamT) (sm : ScoreMap) (nid : Nat) (v : ℚ)
    (hfresh : ∀ e ∈ exams, e.id ≠ nid) :
    optional_items (exams ++ [⟨nid, false⟩]) (fun i => if i = nid then some v else sm i)
      = optional_items exams sm ++ [v] := by
  unfold optional_items
  rw [List.filterMap_append]
  congr 1
  · apply List.filterMap_congr
    intro e he
    simp [hfresh e he]
  · simp

theorem min?_eq_some_iff_rat {a : ℚ} {xs : List ℚ} :
    xs.min? = some a ↔ a ∈ xs ∧ ∀ b ∈ xs, a ≤ b := by
  haveI : Std.Antisymm (fun x1 x2 : ℚ => x1 ≤ x2) := ⟨fun h1 h2 => le_antisymm h1 h2⟩
  exact List.min?_eq_some_iff (fun a => le_refl a) (fun a b => min_choice a b)
    (fun a b c => le_min_iff)

/-- Counterexample to C9 as stated: with a single optional exam scored −5
(selected, and the lowest selected optional), adding a new optional exam
scored −4 ≥ −5 neither replaces the lowest selected item nor leaves the
selection unchanged — both scores are selected, the selection grows — and
the average strictly decreases (−0.45 < −0.25). -/
theorem C9_counterexample :
    (top_optionals [⟨1, false⟩] (fun i => if i = 1 then some (-5) else none)).min?
        = some (-5)
    ∧ ((-5 : ℚ) ≤ -4)
    ∧ top_optionals [⟨1, false⟩, ⟨2, false⟩]
        (fun i => if i = 1 then some (-5) else if i = 2 then some (-4) else none)
      = [-4, -5]
    ∧ top_optionals [⟨1, false⟩] (fun i => if i = 1 then some (-5) else none) = [-5]
    ∧ average [⟨1, false⟩, ⟨2, false⟩]
        (fun i => if i = 1 then some (-5) else if i = 2 then some (-4) else none)
      < average [⟨1, false⟩] (fun i => if i = 1 then some (-5) else none) := by
  refine ⟨?_, by norm_num, ?_, ?_, ?_⟩
  · norm_num [top_optionals, optional_items, mandatory_items, slots_needed,
      sortDesc, List.mergeSort, List.min?, List.filterMap, Int.toNat_ofNat,
      List.take_of_length_le, List.foldl]
  · norm_num [top_optionals, optional_items, mandatory_items, slots_needed,
      sortDesc, List.mergeSort, List.filterMap, Int.toNat_ofNat,
      List.take_of_length_le]
  · norm_num [top_optionals, optional_items, mandatory_items, slots_needed,
      sortDesc, List.mergeSort, List.filterMap, Int.toNat_ofNat,
      List.take_of_length_le]
  · norm_num [average, rawAverage, divisor, selected_scores, top_optionals,
      optional_items, mandatory_items, slots_needed, sortDesc, List.mergeSort,
      List.filterMap, round2, round_eq, Int.toNat_ofNat, List.take_of_length_le]

/-- C9 (amended): adding a fresh optional exam with a nonnegative score `v`
at least the current lowest selected optional score `m` either adds `v` to
the selected optional multiset (when free slots remain), or replaces the
lowest selected score `m` by `v` (when the slots are full and `v` strictly
beats `m`), or leaves the selection unchanged (when `v` ties `m` with full
slots); in every case the resulting average is never lower.  (As stated the
claim omitted the growth case and allowed negative scores, under which the
average can drop.) -/
theorem C9_optional_monotonicity (exams : List ExamT) (sm : ScoreMap)
    (nid : Nat) (v m : ℚ)
    (hfresh : ∀ e ∈ exams, e.id ≠ nid)
    (hv0 : 0 ≤ v)
    (hmin : (top_optionals exams sm).min? = some m)
    (hge : m ≤ v) :
    ((top_optionals (exams ++ [⟨nid, false⟩])
        (fun i => if i = nid then some v else sm i) : Multiset ℚ)
        = v ::ₘ (top_optionals exams sm : Multiset ℚ)
      ∨ (top_optionals (exams ++ [⟨nid, false⟩])
          (fun i => if i = nid then some v else sm i) : Multiset ℚ)
        = v ::ₘ ((top_optionals exams sm : Multiset ℚ).erase m)
      ∨ top_optionals (exams ++ [⟨nid, false⟩])
          (fun i => if i = nid then some v else sm i) = top_optionals exams sm)
    ∧ average exams sm ≤ average (exams ++ [⟨nid, false⟩])
        (fun i => if i = nid then some v else sm i) := by
  classical
  set exams2 := exams ++ [(⟨nid, false⟩ : ExamT)] with hexams2
  set sm2 : ScoreMap := (fun i => if i = nid then some v else sm i) with hsm2
  have hmand : mandatory_items exams2 sm2 = mandatory_items exams sm :=
    mandatory_items_snoc exams sm nid v hfresh
  have hopt : optional_items exams2 sm2 = optional_items exams sm ++ [v] :=
    optional_items_snoc exams sm nid v hfresh
  have hslots : slots_needed exams2 sm2 = slots_needed exams sm := by
    unfold slots_needed
    rw [hmand]
  set M := (mandatory_items exams sm).length with hM
  set s := sortDesc (optional_items exams sm) with hs
  have hne : top_optionals exams sm ≠ [] := by
    intro h
    rw [h] at hmin
    simp at hmin
  have hpos : 0 < slots_needed exams sm := by
    by_contra h
    apply hne
    unfold top_optionals
    rw [if_neg h]
  set k := (slots_needed exams sm).toNat with hk
  have hsl : slots_needed exams sm = 20 - (M : Int) := rfl
  have hpos' : 0 < 20 - (M : Int) := by rw [← hsl]; exact hpos
  have hk' : k = (20 - (M : Int)).toNat := by rw [hk, hsl]
  have hk20 : M + k = 20 := by omega
  have hk0 : 0 < k := by omega
  have htop : top_optionals exams sm = s.take k := by
    unfold top_optionals
    rw [if_pos hpos]
  have htop2 : top_optionals exams2 sm2 = (insDesc v s).take k := by
    unfold top_optionals
    rw [hslots, if_pos hpos, hopt, sortDesc_append_singleton]
  have hlen1 : (selected_scores exams sm).length ≤ 20 := by
    unfold selected_scores
    rw [List.length_append, htop, List.length_take]
    omega
  have hdiv1 : divisor exams sm = 20 := by
    unfold divisor
    omega
  have hlen2 : (selected_scores exams2 sm2).length ≤ 20 := by
    unfold selected_scores
    rw [List.length_append, hmand, htop2, List.length_take, insDesc_length]
    omega
  have hdiv2 : divisor exams2 sm2 = 20 := by
    unfold divisor
    omega
  have havg1 : average exams sm
      = round2 (((mandatory_items exams sm).sum + (s.take k).sum) / 20) := by
    unfold average rawAverage
    rw [if_neg (by rw [hdiv1]; norm_num), hdiv1]
    unfold selected_scores
    rw [List.sum_append, htop]
    norm_num
  have havg2 : average exams2 sm2
      = round2 (((mandatory_items exams sm).sum + ((insDesc v s).take k).sum) / 20) := by
    unfold average rawAverage
    rw [if_neg (by rw [hdiv2]; norm_num), hdiv2]
    unfold selected_scores
    rw [List.sum_append, hmand, htop2]
    norm_num
  rcases lt_or_ge s.length k with hlen | hlen
  · -- free slots remain: the new score simply joins the selection
    have ht1 : s.take k = s := List.take_of_length_le (le_of_lt hlen)
    have ht2 : (insDesc v s).take k = insDesc v s :=
      List.take_of_length_le (by rw [insDesc_length]; omega)
    refine ⟨Or.inl ?_, ?_⟩
    · rw [htop2, htop, ht1, ht2, Multiset.cons_coe]
      exact Multiset.coe_eq_coe.2 (insDesc_perm v s)
    · rw [havg1, havg2, ht1, ht2, insDesc_sum]
      apply round2_mono
      rw [div_le_div_iff_of_pos_right (by norm_num : (0 : ℚ) < 20)]
      linarith
  · -- slots full: `v` replaces the lowest selected score or ties it
    have hki : k - 1 < s.length := by omega
    set lastv := s.get ⟨k - 1, hki⟩ with hlastv
    have hgetq : s[k - 1]? = some lastv := by
      rw [List.getElem?_eq_getElem hki]
      simp [hlastv, List.get_eq_getElem]
    have hdec : s.take k = s.take (k - 1) ++ [lastv] := by
      have h1 : s.take (k - 1 + 1) = s.take (k - 1) ++ s[k - 1]?.toList := List.take_succ
      rw [hgetq] at h1
      have hkk : k - 1 + 1 = k := by omega
      rw [hkk] at h1
      simpa using h1
    have hsorted_take : List.Sorted (fun a b : ℚ => b ≤ a) (s.take k) :=
      List.Pairwise.sublist (List.take_sublist k s) (sortDesc_sorted _)
    have hlb : ∀ b ∈ s.take k, lastv ≤ b := by
      intro b hb
      rw [hdec] at hsorted_take hb
      rcases List.mem_append.1 hb with hb1 | hb2
      · exact (List.pairwise_append.1 hsorted_take).2.2 b hb1 lastv (by simp)
      · have hbl : b = lastv := by simpa using hb2
        rw [hbl]
    have hmem_last : lastv ∈ s.take k := by
      rw [hdec]
      simp
    have hmin' : (s.take k).min? = some m := htop ▸ hmin
    have hm_char := min?_eq_some_iff_rat.1 hmin'
    have hm_eq : m = lastv :=
      le_antisymm (hm_char.2 lastv hmem_last) (hlb m hm_char.1)
    by_cases hlt : m < v
    · -- strict improvement: replace the lowest selected score
      have hperm : ((insDesc v s).take k).Perm (v :: s.take (k - 1)) :=
        insDesc_take_replace v lastv s k hdec (hm_eq ▸ hlt)
      refine ⟨Or.inr (Or.inl ?_), ?_⟩
      · rw [htop2, htop]
        rw [Multiset.coe_eq_coe.2 hperm]
        have h2 : ((s.take k : List ℚ) : Multiset ℚ).erase m = ↑(s.take (k - 1)) := by
          rw [hdec, hm_eq]
          rw [Multiset.coe_eq_coe.2 (List.perm_append_singleton lastv (s.take (k - 1)))]
          rw [← Multiset.cons_coe, Multiset.erase_cons_head]
        rw [h2, ← Multiset.cons_coe]
      · have hsum2 : ((insDesc v s).take k).sum = v + (s.take (k - 1)).sum :=
          hperm.sum_eq.trans (by simp)
        have hsum1 : (s.take k).sum = (s.take (k - 1)).sum + lastv := by
          rw [hdec, List.sum_append]
          simp
        have hlev : lastv ≤ v := hm_eq ▸ hge
        rw [havg1, havg2, hsum1, hsum2]
        apply round2_mono
        rw [div_le_div_iff_of_pos_right (by norm_num : (0 : ℚ) < 20)]
        linarith
    · -- `v` ties the lowest selected score: the selection is unchanged
      have hveq : v ≤ lastv := hm_eq ▸ (not_lt.1 hlt)
      have hsame : (insDesc v s).take k = s.take k :=
        insDesc_take_of_le v s k hlen (fun x hx => le_trans hveq (hlb x hx))
      refine ⟨Or.inr (Or.inr ?_), ?_⟩
      · rw [htop2, htop, hsame]
      · rw [havg1, havg2, hsame]

/-- Witness for C9 (amended): one optional exam scored 50, adding a fresh
optional exam scored 60 ≥ 50 (free slots remain), the average does not
decrease. -/
theorem C9_optional_monotonicity_witness :
    average [⟨1, false⟩] (fun i => if i = 1 then some 50 else none)
      ≤ average ([⟨1, false⟩] ++ [⟨2, false⟩])
        (fun i => if i = 2 then some 60
          else (fun j => if j = 1 then some 50 else none) i) :=
  (C9_optional_monotonicity [⟨1, false⟩] (fun j => if j = 1 then some 50 else none)
    2 60 50 (by decide) (by norm_num)
    (by norm_num [top_optionals, optional_items, mandatory_items, slots_needed,
      sortDesc, List.mergeSort, List.min?, List.filterMap, Int.toNat_ofNat,
      List.take_of_length_le, List.foldl])
    (by norm_num)).2

end GradeQuery
